import Mathlib

/-!
Verification development for the 10-K filing structure parser
(`src/filing_agent/utils/filing_sections.py`).

The Python code is shallowly embedded over `List Char` (Python `str`):
each translated function carries the name of its Python source (minus any
leading underscore).  Oracle calls (the Anthropic client) are modelled as
arbitrary response functions; every deterministic piece of code around
them is translated from the source.
-/

namespace FilingSections

/-! ## Python string primitives, modelled on `List Char` (ASCII scope) -/

/-- The whitespace set of Python `str.strip` / regex `\s` (ASCII scope):
space, tab, newline, carriage return, vertical tab, form feed. -/
def py_isspace (c : Char) : Bool :=
  c == ' ' || c == '\t' || c == '\n' || c == '\r' || c == Char.ofNat 11 || c == Char.ofNat 12

/-- Python `str.lower` (ASCII scope). -/
def py_lower (l : List Char) : List Char := l.map Char.toLower

/-- Python `str.upper` (ASCII scope). -/
def py_upper (l : List Char) : List Char := l.map Char.toUpper

/-- Python `str.strip()`. -/
def py_strip (l : List Char) : List Char :=
  ((l.dropWhile py_isspace).reverse.dropWhile py_isspace).reverse

/-- Python `haystack.find(needle)`: index of the first occurrence, `none` for `-1`. -/
def find_sub (hay needle : List Char) : Option Nat :=
  if needle.isPrefixOf hay then some 0
  else
    match hay with
    | [] => none
    | _ :: t => (find_sub t needle).map (· + 1)

/-- Python `haystack.find(needle, start)`. -/
def find_sub_from (hay needle : List Char) (start : Nat) : Option Nat :=
  (find_sub (hay.drop start) needle).map (· + start)

/-- Python `needle in haystack` (substring test). -/
def contains_sub (hay needle : List Char) : Bool :=
  (find_sub hay needle).isSome

/-- Python `text.split('\n')` (keeps empty pieces; result is never empty). -/
def split_lines : List Char → List (List Char)
  | [] => [[]]
  | c :: t =>
    if c = '\n' then [] :: split_lines t
    else
      match split_lines t with
      | [] => [[c]]
      | l :: ls => (c :: l) :: ls

/-- Python `'\n'.join(lines)`. -/
def join_lines : List (List Char) → List Char
  | [] => []
  | [l] => l
  | l :: l' :: ls => l ++ '\n' :: join_lines (l' :: ls)

/-- The non-whitespace characters of a string, in order (used to state
whitespace-insensitive equality of strings). -/
def non_ws (l : List Char) : List Char := l.filter (fun c => !py_isspace c)

/-- Python `str.isdigit` on an ASCII string: nonempty and all digits. -/
def py_isdigit_str (l : List Char) : Bool := !l.isEmpty && l.all Char.isDigit

/-- Python `int(...)` of a digit string. -/
def nat_of_digits (l : List Char) : Nat := l.foldl (fun n c => n * 10 + (c.toNat - 48)) 0

/-! ### Basic lemmas about the primitives -/

theorem split_lines_ne_nil (s : List Char) : split_lines s ≠ [] := by
  induction s with
  | nil => simp [split_lines]
  | cons c t ih =>
    simp only [split_lines]
    split
    · simp
    · cases h : split_lines t with
      | nil => simp
      | cons l ls => simp

theorem join_split_lines (s : List Char) : join_lines (split_lines s) = s := by
  induction s with
  | nil => rfl
  | cons c t ih =>
    simp only [split_lines]
    split
    · rename_i hc
      subst hc
      cases h : split_lines t with
      | nil => exact absurd h (split_lines_ne_nil t)
      | cons l ls =>
        rw [h] at ih
        simp [join_lines, ih]
    · cases h : split_lines t with
      | nil => exact absurd h (split_lines_ne_nil t)
      | cons l ls =>
        rw [h] at ih
        cases ls with
        | nil => simpa [join_lines] using congrArg (c :: ·) ih
        | cons l' ls' => simpa [join_lines] using congrArg (c :: ·) ih

theorem non_ws_append (a b : List Char) : non_ws (a ++ b) = non_ws a ++ non_ws b := by
  simp [non_ws, List.filter_append]

theorem non_ws_newline : non_ws ['\n'] = [] := by decide

theorem non_ws_dropWhile (l : List Char) :
    non_ws (l.dropWhile py_isspace) = non_ws l := by
  induction l with
  | nil => rfl
  | cons c t ih =>
    by_cases h : py_isspace c = true
    · simp [non_ws, List.dropWhile, h] at ih ⊢
      simpa [non_ws] using ih
    · simp [List.dropWhile, Bool.not_eq_true] at h ⊢
      simp [h]

theorem non_ws_reverse (l : List Char) : non_ws l.reverse = (non_ws l).reverse := by
  simp [non_ws, List.filter_reverse]

theorem non_ws_strip (l : List Char) : non_ws (py_strip l) = non_ws l := by
  unfold py_strip
  rw [non_ws_reverse, non_ws_dropWhile, non_ws_reverse, List.reverse_reverse,
    non_ws_dropWhile]

theorem non_ws_join_lines (ls : List (List Char)) :
    non_ws (join_lines ls) = (ls.map non_ws).flatten := by
  induction ls with
  | nil => rfl
  | cons l t ih =>
    cases t with
    | nil => simp [join_lines]
    | cons l' ls' =>
      simp only [join_lines, List.map_cons, List.flatten_cons] at ih ⊢
      rw [non_ws_append]
      have : non_ws ('\n' :: join_lines (l' :: ls')) = non_ws (join_lines (l' :: ls')) := by
        simp [non_ws, List.filter, py_isspace]
      rw [this, ih]

theorem find_sub_isPrefix {hay needle : List Char} {i : Nat}
    (h : find_sub hay needle = some i) : needle.isPrefixOf (hay.drop i) = true := by
  induction hay generalizing i with
  | nil =>
    unfold find_sub at h
    split at h
    · rename_i hp
      cases h
      simpa using hp
    · exact absurd h (by simp)
  | cons c t ih =>
    unfold find_sub at h
    split at h
    · rename_i hp
      cases h
      simpa using hp
    · simp only [Option.map_eq_some'] at h
      obtain ⟨j, hj, rfl⟩ := h
      simpa using ih hj

theorem isPrefixOf_head {a : Char} {needle hay : List Char}
    (h : (a :: needle).isPrefixOf hay = true) : hay.head? = some a := by
  cases hay with
  | nil => simp [List.isPrefixOf] at h
  | cons b t =>
    simp only [List.isPrefixOf, Bool.and_eq_true, beq_iff_eq] at h
    simp [h.1]

theorem find_sub_lt_length {hay needle : List Char} {i : Nat}
    (hne : needle ≠ []) (h : find_sub hay needle = some i) : i < hay.length := by
  have hp := find_sub_isPrefix h
  by_contra hlt
  push_neg at hlt
  rw [List.drop_eq_nil_of_le hlt] at hp
  cases needle with
  | nil => exact hne rfl
  | cons a t => simp [List.isPrefixOf] at hp

theorem py_lower_length (l : List Char) : (py_lower l).length = l.length := by
  simp [py_lower]

theorem contains_sub_iff_find {hay needle : List Char} :
    contains_sub hay needle = true ↔ ∃ i, find_sub hay needle = some i := by
  unfold contains_sub
  cases h : find_sub hay needle with
  | none => simp
  | some i => simp

/-- The apostrophe character (kept out of string literals). -/
def apos : Char := Char.ofNat 39

/-! ## Data model (`SectionType`, `VisualElement`, `FilingSection`, Pydantic models) -/

/-- Enum `SectionType` of `filing_sections.py`. -/
inductive SectionType where
  | text
  | table
  | chart
  | financial_statement
  | exhibit
deriving DecidableEq

/-- Dataclass `VisualElement`.  `image_data : Optional[bytes]` is modelled as an
optional byte list (it is `None` on every modelled path). -/
structure VisualElement where
  section_id : String
  section_title : String
  element_type : SectionType
  page_number : Option Nat
  description : String
  context : String
  image_data : Option (List Nat)
  extracted_text : Option (List Char)
deriving DecidableEq

/-- Dataclass `FilingSection`.  The source also declares
`subsections : Optional[Dict[str, FilingSection]]`, which no code in the
repository ever populates (it is always the default `None`); that always-`None`
field is omitted from the embedding.  `page_range` is likewise never set. -/
structure FilingSection where
  section_id : String
  title : String
  description : String
  purpose : String
  content : List Char
  visual_elements : List VisualElement
  key_contents : List String
  page_range : Option (Nat × Nat)
deriving DecidableEq

/-- Pydantic model `SectionFound` (the schema of one section claim returned by
the structured-inference oracle). -/
structure SectionFound where
  section_id : String
  part : String
  title : String
  content_start : String
  content_length : Int
  contains_key_info : List String
deriving DecidableEq

/-- Pydantic model `ChunkAnalysis`. -/
structure ChunkAnalysis where
  sections_found : List SectionFound
  chunk_summary : String
deriving DecidableEq

/-- A node of the hierarchical structure dictionary built by the parser:
the optional `"section"` entry and the (insertion-ordered) `"subsections"`
mapping.  An absent `"subsections"` key is the empty list. -/
inductive SNode where
  | mk (sec : Option FilingSection) (subsections : List (String × SNode))

/-- The result dictionary of `parse_structured_filing`. -/
structure ParsedF where
  filing_url : String
  total_length : Nat
  cleaned_length : Nat
  structure_ : List (String × SNode)
  parsing_method : String
  chunks_processed : Nat

/-! ## The static 10-K outline (`FORM_10K_STRUCTURE`) -/

/-- One item entry of `FORM_10K_STRUCTURE` ("title", "purpose", optional
"parent", optional "key_metrics"). -/
structure ItemInfo where
  title : String
  purpose : String
  parent : Option String
  key_metrics : List String
deriving DecidableEq

/-- A top-level entry of `FORM_10K_STRUCTURE`: either a part (with a "sections"
mapping) or the leaf "signatures" entry (title and purpose only). -/
inductive TopEntry where
  | part (title : String) (sections : List (String × ItemInfo))
  | leaf (title : String) (purpose : String)
deriving DecidableEq

/-- Shorthand for an item with neither parent nor key metrics. -/
def item0 (title purpose : String) : ItemInfo :=
  { title := title, purpose := purpose, parent := none, key_metrics := [] }

/-- Shorthand for an item with a parent. -/
def itemP (title purpose parent : String) : ItemInfo :=
  { title := title, purpose := purpose, parent := some parent, key_metrics := [] }

/-- `self.FORM_10K_STRUCTURE` of `TenKStructureParser.__init__`. -/
def FORM_10K_STRUCTURE : List (String × TopEntry) :=
  [ ("part_1", TopEntry.part "Part I - Business Information"
      [ ("item_1", item0 "Business" "Company operations and strategy"),
        ("item_1a", itemP "Risk Factors" "Material risks" "item_1"),
        ("item_1b", itemP "Unresolved Staff Comments" "SEC comments" "item_1"),
        ("item_1c", itemP "Cybersecurity" "Cyber risk management" "item_1"),
        ("item_2", item0 "Properties" "Physical assets"),
        ("item_3", item0 "Legal Proceedings" "Material litigation"),
        ("item_4", item0 "Mine Safety Disclosures" "Mining safety (if applicable)") ]),
    ("part_2", TopEntry.part "Part II - Financial Information"
      [ ("item_5", item0 "Market for Common Equity" "Stock and shareholder info"),
        ("item_6", item0 "Reserved" "Reserved section"),
        ("item_7", { title := "Management" ++ toString apos ++ "s Discussion and Analysis",
                     purpose := "Financial performance analysis", parent := none,
                     key_metrics := ["combined ratio", "underwriting", "revenue", "margins"] }),
        ("item_7a", itemP "Market Risk Disclosures" "Market risk exposure" "item_7"),
        ("item_8", item0 "Financial Statements" "Audited financials"),
        ("item_9", item0 "Changes in Accountants" "Auditor changes"),
        ("item_9a", itemP "Controls and Procedures" "Internal controls" "item_9"),
        ("item_9b", itemP "Other Information" "Additional disclosures" "item_9"),
        ("item_9c", itemP "Foreign Jurisdiction Inspections" "Audit inspection issues" "item_9") ]),
    ("part_3", TopEntry.part "Part III - Corporate Governance"
      [ ("item_10", item0 "Directors and Officers" "Leadership information"),
        ("item_11", item0 "Executive Compensation" "Pay disclosures"),
        ("item_12", item0 "Security Ownership" "Stock ownership"),
        ("item_13", item0 "Related Transactions" "Related party deals"),
        ("item_14", item0 "Accountant Fees" "Auditor compensation") ]),
    ("part_4", TopEntry.part "Part IV - Exhibits and Signatures"
      [ ("item_15", item0 "Exhibits and Schedules" "Document index"),
        ("item_16", item0 "Form 10-K Summary" "Optional summary") ]),
    ("signatures", TopEntry.leaf "Signatures" "Required signatures") ]

/-- `_get_section_description`: scan the parts of `FORM_10K_STRUCTURE` in order
(entries without a "sections" key are skipped) and return the item's "purpose",
defaulting to the empty string. -/
def get_section_description (section_id : String) : String :=
  go FORM_10K_STRUCTURE
where
  go : List (String × TopEntry) → String
    | [] => ""
    | (_, TopEntry.leaf _ _) :: t => go t
    | (_, TopEntry.part _ secs) :: t =>
      match secs.lookup section_id with
      | some info => info.purpose
      | none => go t

/-- `_get_section_purpose` (the source returns `_get_section_description`). -/
def get_section_purpose (section_id : String) : String :=
  get_section_description section_id

/-- The RegulatoryOutline vocabulary: the part/item identifiers of
`FORM_10K_STRUCTURE` (top-level keys, which include `"signatures"`, plus all
item keys). -/
def outline_vocabulary : List String :=
  FORM_10K_STRUCTURE.map (·.1) ++
    FORM_10K_STRUCTURE.flatMap (fun e =>
      match e.2 with
      | TopEntry.part _ secs => secs.map (·.1)
      | TopEntry.leaf _ _ => [])

/-! ## Content Preprocessor (`_preprocess_filing_content`) -/

/-- `line.strip().lower()` — the `line_lower` of the preprocessing loop. -/
def line_lower_of (line : List Char) : List Char := py_lower (py_strip line)

/-- The XBRL-metadata indicators of `_preprocess_filing_content`. -/
def xbrl_indicators : List String :=
  ["context id=", "xbrl", "taxonomy", "namespace", "schema", "entity identifier"]

/-- The indicators that clear the XBRL-skipping flag. -/
def xbrl_clear_indicators : List String :=
  ["part i", "item 1", "business", "table of contents"]

/-- The table-of-contents markers. -/
def toc_markers : List String :=
  ["table of contents", "index", "part i", "part ii", "part iii"]

/-- Narrative-start indicators checked while inside the table of contents. -/
def toc_narrative_indicators : List String :=
  ["forward-looking statements", "item 1.", "part i - item 1", "business\nthe company"]

/-- Narrative-start indicators of the `elif` branch (TOC detection failed). -/
def narrative_elif_indicators : List String :=
  ["item 1. business", "part i - item 1", "underwriting for", "the company operates"]

/-- `any(indicator in line_lower for indicator in [...])` for the XBRL set. -/
def has_xbrl_indicator (line : List Char) : Bool :=
  xbrl_indicators.any (fun s => contains_sub (line_lower_of line) s.toList)

/-- Test for the XBRL-clearing indicators. -/
def has_xbrl_clear (line : List Char) : Bool :=
  xbrl_clear_indicators.any (fun s => contains_sub (line_lower_of line) s.toList)

/-- Test for the table-of-contents markers. -/
def has_toc_marker (line : List Char) : Bool :=
  toc_markers.any (fun s => contains_sub (line_lower_of line) s.toList)

/-- TOC-mode skip of short digit-bearing lines (page-number entries):
`any(char.isdigit() for char in line) and len(line.strip()) < 100`. -/
def toc_digit_skip (line : List Char) : Bool :=
  line.any Char.isDigit && decide ((py_strip line).length < 100)

/-- Narrative start detected while in the TOC:
indicator present and `len(line.strip()) > 20`. -/
def toc_narrative_fires (line : List Char) : Bool :=
  toc_narrative_indicators.any (fun s => contains_sub (line_lower_of line) s.toList) &&
    decide (20 < (py_strip line).length)

/-- Narrative start detected by the `elif` branch:
indicator present and `len(line.strip()) > 15`. -/
def narrative_elif_fires (line : List Char) : Bool :=
  narrative_elif_indicators.any (fun s => contains_sub (line_lower_of line) s.toList) &&
    decide (15 < (py_strip line).length)

/-- The loop state of `_preprocess_filing_content`: the three flags and the
accumulated `cleaned_lines`. -/
structure PState where
  in_xbrl : Bool
  in_toc : Bool
  found : Bool
  acc : List (List Char)

/-- Initial preprocessing state. -/
def pp_init : PState := { in_xbrl := false, in_toc := false, found := false, acc := [] }

/-- One iteration of the line loop of `_preprocess_filing_content`
(each Python `continue` is a branch returning the updated state). -/
def preprocess_step (st : PState) (line : List Char) : PState :=
  if has_xbrl_indicator line then { st with in_xbrl := true }
  else
    let st1 := if st.in_xbrl && has_xbrl_clear line then { st with in_xbrl := false } else st
    if st1.in_xbrl then st1
    else if !st1.found && has_toc_marker line then { st1 with in_toc := true }
    else if st1.in_toc then
      if toc_digit_skip line then st1
      else if toc_narrative_fires line then
        { st1 with in_toc := false, found := true, acc := st1.acc ++ [line] }
      else st1
    else if st1.found then { st1 with acc := st1.acc ++ [line] }
    else if narrative_elif_fires line then { st1 with found := true, acc := st1.acc ++ [line] }
    else st1

/-- The domain words of the position-based fallback. -/
def position_words : List String :=
  ["company", "business", "operations", "insurance", "financial"]

/-- Qualifying line of the position-based fallback:
`len(line.strip()) > 50 and any(word in line.lower() for word in [...])`. -/
def pos_qual_line (line : List Char) : Bool :=
  decide (50 < (py_strip line).length) &&
    position_words.any (fun w => contains_sub (py_lower line) w.toList)

/-- The scan of the position-based fallback: the first index in
`range(start_pos, min(start_pos + 1000, len(lines)))` whose line qualifies.
`int(len(lines) * 0.2)` is modelled as exact truncation `len * 2 / 10` (the
float product is integral-exact at all realistic sizes). -/
def pp_fallback_scan (lines : List (List Char)) : Option Nat :=
  let start_pos := lines.length * 2 / 10
  let stop := min (start_pos + 1000) lines.length
  (List.range' start_pos (stop - start_pos)).find?
    (fun i => pos_qual_line ((lines.get? i).getD []))

/-- `_preprocess_filing_content`: fold the line loop, then, when no narrative
start was found and the accumulation is implausibly short, retry with the
position-based fallback (taking the suffix from the first qualifying line). -/
def preprocess_filing_content (t : List Char) : List Char :=
  let lines := split_lines t
  let st := lines.foldl preprocess_step pp_init
  join_lines
    (if !st.found && decide (st.acc.length < 1000) then
      match pp_fallback_scan lines with
      | some i => lines.drop i
      | none => st.acc
    else st.acc)

/-! ## Chunk Splitter (`_split_content_intelligently`) -/

/-- The `section_markers` list of `_split_content_intelligently`
(source order and case). -/
def section_markers : List String :=
  ["PART I", "PART II", "PART III", "PART IV",
   "Item 1.", "Item 2.", "Item 3.", "Item 4.", "Item 5.", "Item 6.", "Item 7.",
   "Item 8.", "Item 9.",
   "Item 10.", "Item 11.", "Item 12.", "Item 13.", "Item 14.", "Item 15.", "Item 16.",
   "SIGNATURES"]

/-- `any(marker in line_upper for marker in section_markers)` with
`line_upper = line.strip().upper()`. -/
def is_section_break (line : List Char) : Bool :=
  section_markers.any (fun m => contains_sub (py_upper (py_strip line)) m.toList)

/-- The line loop of `_split_content_intelligently`: accumulate into
`current_chunk`, flushing (stripped) at section breaks once over size. -/
def split_loop (max_chunk_size : Nat) :
    List (List Char) → List (List Char) → List Char → List (List Char)
  | [], chunks, current =>
    if py_strip current ≠ [] then chunks ++ [py_strip current] else chunks
  | line :: rest, chunks, current =>
    if decide (max_chunk_size < current.length + line.length) && is_section_break line &&
        !current.isEmpty then
      split_loop max_chunk_size rest (chunks ++ [py_strip current]) (line ++ ['\n'])
    else
      split_loop max_chunk_size rest chunks (current ++ line ++ ['\n'])

/-- `_split_content_intelligently(text_content, max_chunk_size)`
(the source default for `max_chunk_size` is 50000; callers pass it explicitly
here). -/
def split_content_intelligently (text_content : List Char) (max_chunk_size : Nat) :
    List (List Char) :=
  split_loop max_chunk_size (split_lines text_content) [] []

/-! ## Fallback structure parser (`_fallback_parse_structure`) -/

/-- The search text of the fallback parser (apostrophe built explicitly). -/
def mda_search_marker : List Char :=
  "management".toList ++ [apos] ++ "s discussion and analysis".toList

/-- The end-boundary search text of the fallback parser. -/
def fs_search_marker : List Char := "financial statements".toList

/-- Title of the fallback MD&A section. -/
def mda_title : String := "Management" ++ toString apos ++ "s Discussion and Analysis"

/-- Description of the fallback MD&A section. -/
def mda_description : String := "Management" ++ toString apos ++ "s analysis of financial performance"

/-- `_fallback_parse_structure`: locate the MD&A by literal search on the
lowered text, end it at `"financial statements"` (or 50000 characters), and
store it as `part_2 → item_7`. -/
def fallback_parse_structure (text_content : List Char) : List (String × SNode) :=
  let low := py_lower text_content
  match find_sub low mda_search_marker with
  | none => []
  | some mda_start =>
    let mda_end :=
      match find_sub_from low fs_search_marker mda_start with
      | some e => e
      | none => mda_start + 50000
    let mda_content := (text_content.drop mda_start).take (mda_end - mda_start)
    [("part_2", SNode.mk none
      [("item_7", SNode.mk (some
        { section_id := "item_7", title := mda_title, description := mda_description,
          purpose := "Financial performance analysis", content := mda_content,
          visual_elements := [], key_contents := [], page_range := none }) [])])]

/-! ## Section Query Interface (`find_content_with_keywords`) -/

/-- `new_path = f"path.key" if current_path else key`. -/
def new_path (p k : String) : String := if p = "" then k else p ++ "." ++ k

/-- Keyword test of `find_content_with_keywords`:
some keyword (lowered) is a substring of the section content (lowered). -/
def keyword_hit (keywords : List String) (s : FilingSection) : Bool :=
  keywords.any (fun kw => contains_sub (py_lower s.content) (py_lower kw.toList))

mutual

/-- `search_structure` on one node: emit the node's own section when a keyword
matches (at most once per section), then recurse into its subsections. -/
def search_structure_node (keywords : List String) (path : String) :
    SNode → List (String × FilingSection)
  | SNode.mk sec subs =>
    (match sec with
     | some fs => if keyword_hit keywords fs then [(path, fs)] else []
     | none => []) ++ search_structure_list keywords path subs

/-- `search_structure` over the entries of a structure dictionary, in
insertion order. -/
def search_structure_list (keywords : List String) (path : String) :
    List (String × SNode) → List (String × FilingSection)
  | [] => []
  | e :: t =>
    search_structure_node keywords (new_path path e.1) e.2 ++
      search_structure_list keywords path t

end

/-- `find_content_with_keywords(parsed_filing, keywords)`. -/
def find_content_with_keywords (p : ParsedF) (keywords : List String) :
    List (String × FilingSection) :=
  search_structure_list keywords "" p.structure_

mutual

/-- All `(path, FilingSection)` pairs of a node in traversal (pre-)order,
regardless of keywords — the reference traversal for the query interface. -/
def snode_path_sections (path : String) : SNode → List (String × FilingSection)
  | SNode.mk sec subs =>
    (match sec with
     | some fs => [(path, fs)]
     | none => []) ++ slist_path_sections path subs

/-- All `(path, FilingSection)` pairs of a structure dictionary in traversal
order. -/
def slist_path_sections (path : String) : List (String × SNode) → List (String × FilingSection)
  | [] => []
  | e :: t => snode_path_sections (new_path path e.1) e.2 ++ slist_path_sections path t

end

mutual

/-- All `FilingSection`s stored anywhere under a node. -/
def snode_sections : SNode → List FilingSection
  | SNode.mk sec subs => sec.toList ++ slist_sections subs

/-- All `FilingSection`s stored anywhere in a structure dictionary. -/
def slist_sections : List (String × SNode) → List FilingSection
  | [] => []
  | e :: t => snode_sections e.2 ++ slist_sections t

end

/-- Direct lookup of the section stored under `part_id → section_id`
(read-only accessor used to state properties of the built structure). -/
def lookup_section (st : List (String × SNode)) (part_id section_id : String) :
    Option FilingSection :=
  match (st.find? (fun e => e.1 == part_id)).map (·.2) with
  | none => none
  | some (SNode.mk _ subs) =>
    match (subs.find? (fun e => e.1 == section_id)).map (·.2) with
    | none => none
    | some (SNode.mk sec _) => sec

/-- Content of the section stored under `part_id → section_id` (empty when
absent). -/
def section_content_of (p : ParsedF) (part_id section_id : String) : List Char :=
  match lookup_section p.structure_ part_id section_id with
  | some fs => fs.content
  | none => []

/-! ## Table filters (`_is_meaningful_table`, `_is_section_relevant_table`) -/

/-- The financial-keyword vocabulary of `_is_meaningful_table`. -/
def financial_keywords : List String :=
  ["million", "billion", "thousand", "$", "percent", "%",
   "revenue", "income", "loss", "assets", "liabilities",
   "ratio", "premium", "claim", "underwriting", "investment",
   "year ended", "december", "quarter", "fiscal"]

/-- The boilerplate skip phrases of `_is_meaningful_table`. -/
def table_skip_phrases : List String :=
  ["annual report pursuant", "securities exchange act", "check one", "commission file number"]

/-- `_is_meaningful_table(table_text)`. -/
def is_meaningful_table (table_text : List Char) : Bool :=
  if table_text.isEmpty || decide (table_text.length < 50) then false
  else
    let lines := split_lines table_text
    let non_empty_lines := lines.filter (fun l => !(py_strip l).isEmpty && py_strip l ≠ ['|'])
    if decide (non_empty_lines.length < 3) then false
    else
      let text_lower := py_lower table_text
      let keyword_count :=
        (financial_keywords.filter (fun k => contains_sub text_lower k.toList)).length
      if table_skip_phrases.any (fun p => contains_sub text_lower p.toList) then false
      else decide (2 ≤ keyword_count)

/-- The per-section keyword sets of `_is_section_relevant_table`. -/
def section_keywords (section_id : String) : List String :=
  if section_id = "item_1a" then ["risk", "factor", "exposure", "impact"]
  else if section_id = "item_1" then ["business", "operation", "product", "service", "coverage"]
  else if section_id = "item_7" then
    ["year ended", "december", "million", "income", "revenue", "expense",
     "prior accident", "development", "catastrophe", "loss", "ratio", "premium"]
  else if section_id = "item_5" then ["share", "stock", "dividend", "repurchase", "market"]
  else if section_id = "item_8" then ["balance sheet", "statement", "cash flow", "equity"]
  else []

/-- `_is_section_relevant_table(table_text, section_id)`. -/
def is_section_relevant_table (table_text : List Char) (section_id : String) : Bool :=
  let text_lower := py_lower table_text
  if contains_sub text_lower "trading symbol".toList &&
      contains_sub text_lower "new york stock exchange".toList then false
  else
    let relevant_keywords := section_keywords section_id
    if relevant_keywords.isEmpty then true
    else decide (2 ≤ (relevant_keywords.filter (fun k => contains_sub text_lower k.toList)).length)

/-! ## A small regex engine

Sufficient for the patterns of `_extract_section_content_from_chunk` and
`_regex_find_section_boundary`.  Only `match.start()` (the leftmost start of a
match) is ever consumed by the source, so the matcher is a nondeterministic
prefix matcher; `re.IGNORECASE` is realized by searching lowered text with
lowered patterns (letter classes adjusted accordingly). -/

/-- Regular expressions: empty, single character by predicate, sequence,
alternation, Kleene star, word boundary (`\b`). -/
inductive RE where
  | eps : RE
  | anyOf : (Char → Bool) → RE
  | seq : RE → RE → RE
  | alt : RE → RE → RE
  | star : RE → RE
  | wordb : RE

/-- Python regex word character (`\w`, ASCII scope). -/
def is_word_char : Option Char → Bool
  | none => false
  | some c => c.isAlphanum || c == '_'

/-- Iterate a matching step at most `n` times (enough for star on a suffix of
length `n`), requiring strict progress on each round. -/
def star_loop (f : Option Char → List Char → List (Option Char × List Char)) :
    Nat → Option Char → List Char → List (Option Char × List Char)
  | 0, p, s => [(p, s)]
  | Nat.succ n, p, s =>
    (p, s) :: ((f p s).filter (fun x => x.2.length < s.length)).flatMap
      (fun x => star_loop f n x.1 x.2)

/-- All ways a regex can match a prefix of `s`; each result is the last
consumed character (for `\b`) and the remaining suffix.  `p` is the character
just before `s`. -/
def re_match : RE → Option Char → List Char → List (Option Char × List Char)
  | RE.eps, p, s => [(p, s)]
  | RE.anyOf _, _, [] => []
  | RE.anyOf f, _, c :: t => if f c then [(some c, t)] else []
  | RE.seq a b, p, s => (re_match a p s).flatMap (fun x => re_match b x.1 x.2)
  | RE.alt a b, p, s => re_match a p s ++ re_match b p s
  | RE.star a, p, s => star_loop (fun q u => re_match a q u) s.length p s
  | RE.wordb, p, s => if is_word_char p != is_word_char s.head? then [(p, s)] else []

/-- Does some match of `r` begin at the start of `s` (preceded by `p`)? -/
def re_matches_at (r : RE) (p : Option Char) (s : List Char) : Bool :=
  !(re_match r p s).isEmpty

/-- Leftmost match start, from index `i`. -/
def re_search_aux (r : RE) : Option Char → List Char → Nat → Option Nat
  | p, [], i => if re_matches_at r p [] then some i else none
  | p, c :: t, i =>
    if re_matches_at r p (c :: t) then some i else re_search_aux r (some c) t (i + 1)

/-- `re.search(r, s).start()` (`none` when there is no match). -/
def re_search (r : RE) (s : List Char) : Option Nat := re_search_aux r none s 0

/-- Literal string pattern. -/
def re_lit (s : String) : RE :=
  s.toList.foldr (fun c r => RE.seq (RE.anyOf (fun x => x == c)) r) RE.eps

/-- `\s`. -/
def re_ws : RE := RE.anyOf py_isspace

/-- `\s*`. -/
def re_ws_star : RE := RE.star re_ws

/-- `\s+`. -/
def re_ws_plus : RE := RE.seq re_ws re_ws_star

/-- `\d`. -/
def re_digit : RE := RE.anyOf Char.isDigit

/-- `\d+`. -/
def re_digit_plus : RE := RE.seq re_digit (RE.star re_digit)

/-- `.` (any character but newline; no DOTALL in the source). -/
def re_dot_star : RE := RE.star (RE.anyOf (fun c => c != '\n'))

/-- `r?`. -/
def re_opt (r : RE) : RE := RE.alt r RE.eps

/-- `r+`. -/
def re_plus (r : RE) : RE := RE.seq r (RE.star r)

/-- `r{1,4}`. -/
def re_rep14 (r : RE) : RE := RE.seq r (RE.seq (re_opt r) (RE.seq (re_opt r) (re_opt r)))

/-- Sequence a list of regexes. -/
def re_seqs (l : List RE) : RE := l.foldr RE.seq RE.eps

/-- Lowercase ASCII letter class (`[a-z]`; also `[A-Z]` under IGNORECASE on
lowered text). -/
def re_lower_alpha : RE := RE.anyOf (fun c => 'a' ≤ c && c ≤ 'z')

/-! ## Section Content Extractor (`_extract_section_content_from_chunk`) -/

/-- The `section_patterns` dictionary of `_extract_section_content_from_chunk`
(patterns are searched on the lowered chunk). -/
def section_patterns_for (section_id : String) : Option (List RE) :=
  if section_id = "item_1a" then some
    [re_seqs [re_lit "item", re_ws_plus, re_lit "1a"],
     re_seqs [re_lit "risk", re_ws_plus, re_lit "factors"]]
  else if section_id = "item_7" then some
    [re_seqs [re_lit "item", re_ws_plus, re_lit "7"],
     re_seqs [re_lit "management", re_dot_star, re_lit "discussion", re_dot_star,
       re_lit "analysis"],
     re_lit "md&a"]
  else if section_id = "item_1" then some
    [re_seqs [re_lit "item", re_ws_plus, re_lit "1", RE.anyOf (fun c => !('a' ≤ c && c ≤ 'z'))],
     re_seqs [RE.wordb, re_lit "business", RE.wordb]]
  else if section_id = "item_8" then some
    [re_seqs [re_lit "item", re_ws_plus, re_lit "8"],
     re_seqs [re_lit "financial", re_ws_plus, re_lit "statements"]]
  else none

/-- `for pattern in patterns: if re.search(...): return match.start()` —
the start position of the first pattern (in list order) that matches. -/
def first_match_start : List RE → List Char → Option Nat
  | [], _ => none
  | p :: t, txt =>
    match re_search p txt with
    | some st => some st
    | none => first_match_start t txt

/-- The `next_section_patterns` of `_regex_find_section_boundary`, lowered for
`re.IGNORECASE` (the two mixed-case variants of each header pattern coincide
after lowering but are kept as seven entries, as in the source). -/
def next_section_patterns : List RE :=
  let item_header := re_seqs
    [RE.anyOf (fun c => c == '\n'), re_ws_star, re_lit "item", re_ws_plus, re_digit_plus,
     RE.star re_lower_alpha, re_opt (RE.anyOf (fun c => c == '.')), re_ws_star,
     re_plus (RE.anyOf (fun c => ('a' ≤ c && c ≤ 'z') || py_isspace c)),
     RE.anyOf (fun c => c == '\n')]
  let part_header := re_seqs
    [RE.anyOf (fun c => c == '\n'), re_ws_star, re_lit "part", re_ws_plus,
     RE.alt (re_rep14 (RE.anyOf (fun c => c == 'i'))) (RE.anyOf (fun c => '1' ≤ c && c ≤ '4')),
     re_ws_star, RE.anyOf (fun c => c == '\n')]
  let signatures_header := re_seqs
    [RE.anyOf (fun c => c == '\n'), re_ws_star, re_lit "signatures", re_ws_star,
     RE.anyOf (fun c => c == '\n')]
  let tag_item := re_seqs
    [RE.anyOf (fun c => c == '<'), RE.star (RE.anyOf (fun c => c != '>')),
     RE.anyOf (fun c => c == '>'), re_ws_star, re_lit "item", re_ws_plus, re_digit_plus,
     RE.star re_lower_alpha]
  [item_header, item_header, part_header, part_header, signatures_header, tag_item, tag_item]

/-- `_regex_find_section_boundary(chunk, section_id)`: search each pattern in
`chunk[500:]`, cut at the earliest match, and fall back to a 5000-character
prefix when the cut is too short.  (`section_id` is unused, as in the source;
the trailing `return None` of the source is unreachable.) -/
def regex_find_section_boundary (chunk : List Char) (section_id : String) : List Char :=
  let _ := section_id
  let search_text := py_lower (chunk.drop 500)
  let min_end_pos := next_section_patterns.foldl
    (fun acc pat =>
      match re_search pat search_text with
      | some st => min acc (500 + st)
      | none => acc) chunk.length
  let section_content := py_strip (chunk.take min_end_pos)
  if 100 ≤ section_content.length then section_content
  else py_strip (chunk.take (min 5000 chunk.length))

/-- `_llm_find_section_boundary(chunk, current_section_id)` with the oracle
call abstracted as `boundary_response` (its `None` covers API errors and empty
responses; prompt construction, including the `section_sequence` lookup of the
next expected sections, only feeds the oracle and is elided). -/
def llm_find_section_boundary (boundary_response : List Char → String → Option String)
    (chunk : List Char) (current_section_id : String) : Option (List Char) :=
  match boundary_response chunk current_section_id with
  | none => none
  | some resp =>
    let boundary_result := py_strip resp.toList
    if py_isdigit_str boundary_result then
      let boundary_pos := nat_of_digits boundary_result
      if 0 < boundary_pos && decide (boundary_pos < chunk.length) then
        let section_content := py_strip (chunk.take boundary_pos)
        if 500 ≤ section_content.length then some section_content else none
      else none
    else none

/-- The tail of `_extract_section_content_from_chunk`: the `section_patterns`
scan over the lowered chunk, then the final `chunk[:10000].strip()` fallback. -/
def section_patterns_fallback (chunk : List Char) (section_id : String) : List Char :=
  match section_patterns_for section_id with
  | some patterns =>
    match first_match_start patterns (py_lower chunk) with
    | some start_pos => py_strip ((chunk.drop start_pos).take 15000)
    | none => py_strip (chunk.take 10000)
  | none => py_strip (chunk.take 10000)

/-- `_extract_section_content_from_chunk(chunk, section_info)`.
`has_client` mirrors `self.anthropic_client` (always configured on the one
call path, inside the LLM-driven mapper). -/
def extract_section_content_from_chunk (has_client : Bool)
    (boundary_response : List Char → String → Option String)
    (chunk : List Char) (section_info : SectionFound) : List Char :=
  let content_start_hint := section_info.content_start
  let section_id := section_info.section_id
  if !content_start_hint.toList.isEmpty then
    match find_sub (py_lower chunk) ((py_lower content_start_hint.toList).take 50) with
    | some start_pos =>
      let chunk_from_start := (chunk.drop start_pos).take 50000
      let llm_content :=
        if has_client && decide (1000 < chunk_from_start.length) then
          llm_find_section_boundary boundary_response chunk_from_start section_id
        else none
      match llm_content with
      | some c =>
        if !c.isEmpty then c
        else
          let rc := regex_find_section_boundary chunk_from_start section_id
          if !rc.isEmpty then rc else section_patterns_fallback chunk section_id
      | none =>
        let rc := regex_find_section_boundary chunk_from_start section_id
        if !rc.isEmpty then rc else section_patterns_fallback chunk section_id
    | none => section_patterns_fallback chunk section_id
  else section_patterns_fallback chunk section_id

/-! ## Section Structure Mapper (`_llm_parse_structure_pydantic`) -/

/-- The oracle surface of the parser (`self.anthropic_client` plus the
soup-reading visual extractor):
* `analyze_chunk i` — the validated `ChunkAnalysis` returned by the
  structured-output call for chunk `i` (`none`: API error, malformed response,
  or no `analyze_chunk` tool-use block; the chunk is skipped);
* `boundary_response` — the raw text returned by the boundary-detection call
  of `_llm_find_section_boundary`;
* `find_visuals_for_section` — `_find_visuals_for_section(soup, url, id, title)`,
  which traverses the BeautifulSoup HTML tree; the tree layer is outside this
  text-level embedding, so the per-section visual list is a parameter. -/
structure OracleBundle where
  analyze_chunk : Nat → Option ChunkAnalysis
  boundary_response : List Char → String → Option String
  find_visuals_for_section : String → String → List VisualElement

/-- The `[VISUAL CONTENT]` block appended to a section's content:
`"\n\n[VISUAL CONTENT]\n" + "\n".join("<bullet> " + v.description)`. -/
def visual_block (visuals : List VisualElement) : List Char :=
  "\n\n[VISUAL CONTENT]\n".toList ++
    join_lines (visuals.map (fun v => Char.ofNat 8226 :: ' ' :: v.description.toList))

/-- The `FilingSection` constructed for one oracle section claim
(`_llm_parse_structure_pydantic`, the `FilingSection(...)` call, including the
visual-summaries append just before it). -/
def built_section (ob : OracleBundle) (chunk : List Char) (sf : SectionFound) :
    FilingSection :=
  let section_content := extract_section_content_from_chunk true ob.boundary_response chunk sf
  let section_visuals := ob.find_visuals_for_section sf.section_id sf.title
  { section_id := sf.section_id,
    title := sf.title,
    description := get_section_description sf.section_id,
    purpose := get_section_purpose sf.section_id,
    content :=
      if !section_visuals.isEmpty then section_content ++ visual_block section_visuals
      else section_content,
    visual_elements := section_visuals,
    key_contents := sf.contains_key_info,
    page_range := none }

/-- Python dict assignment `d[k] = v` on an insertion-ordered association
list: replace in place when the key exists, else append. -/
def assoc_set : List (String × SNode) → String → SNode → List (String × SNode)
  | [], k, v => [(k, v)]
  | e :: t, k, v => if e.1 = k then (k, v) :: t else e :: assoc_set t k v

/-- `if part_id not in parsed_sections: parsed_sections[part_id] = {"subsections": {}}`. -/
def ensure_part (acc : List (String × SNode)) (part_id : String) : List (String × SNode) :=
  if acc.any (fun e => e.1 == part_id) then acc else acc ++ [(part_id, SNode.mk none [])]

/-- `parsed_sections[part_id]["subsections"][section_id] = {"section": fs}`
(after `ensure_part`; last write wins on a repeated `section_id`). -/
def set_subsection (acc : List (String × SNode)) (part_id section_id : String)
    (fs : FilingSection) : List (String × SNode) :=
  (ensure_part acc part_id).map (fun e =>
    if e.1 = part_id then
      match e.2 with
      | SNode.mk sec subs => (e.1, SNode.mk sec (assoc_set subs section_id (SNode.mk (some fs) [])))
    else e)

/-- Processing of one `section_info` claim inside the chunk loop: extract the
content, and store the built `FilingSection` only when the content is
non-empty (`if section_content:`). -/
def process_section (ob : OracleBundle) (chunk : List Char)
    (acc : List (String × SNode)) (sf : SectionFound) : List (String × SNode) :=
  if !(extract_section_content_from_chunk true ob.boundary_response chunk sf).isEmpty then
    set_subsection acc sf.part sf.section_id (built_section ob chunk sf)
  else acc

/-- `_llm_parse_structure_pydantic(chunks)`: process `chunks[:6]` in order,
folding each chunk's section claims into the accumulating structure (a chunk
whose oracle call fails contributes nothing). -/
def llm_parse_structure_pydantic (ob : OracleBundle) (chunks : List (List Char)) :
    List (String × SNode) :=
  ((chunks.take 6).enum).foldl
    (fun acc ic =>
      match ob.analyze_chunk ic.1 with
      | none => acc
      | some chunk_analysis => chunk_analysis.sections_found.foldl (process_section ob ic.2) acc)
    []

/-- The number of chunks the mapper's loop submits to the oracle
(`for i, chunk in enumerate(chunks[:6])` — one structured call per
iteration). -/
def mapper_chunks_submitted (chunks : List (List Char)) : Nat := (chunks.take 6).length

/-- The value stored in `result["chunks_processed"]`
(`parse_structured_filing`, line `"chunks_processed": len(chunks)`). -/
def chunks_processed_field (chunks : List (List Char)) : Nat := chunks.length

/-! ## `parse_structured_filing` -/

/-- `parse_structured_filing(filing_content, filing_url)`, modelled from the
point after BeautifulSoup text extraction (`text_content = soup.get_text(...)`,
the input here).  With an oracle configured the structure comes from the
LLM-driven mapper, otherwise from the fallback text search. -/
def parse_structured_filing (client : Option OracleBundle) (text_content : List Char)
    (filing_url : String) : ParsedF :=
  let cleaned_content := preprocess_filing_content text_content
  let chunks := split_content_intelligently cleaned_content 50000
  { filing_url := filing_url,
    total_length := text_content.length,
    cleaned_length := cleaned_content.length,
    structure_ :=
      match client with
      | some ob => llm_parse_structure_pydantic ob chunks
      | none => fallback_parse_structure cleaned_content,
    parsing_method := "llm_driven_pydantic",
    chunks_processed := chunks.length }

/-! ## Lemmas about the Chunk Splitter -/

theorem split_loop_non_ws (m : Nat) (ls : List (List Char)) :
    ∀ (chunks : List (List Char)) (cur : List Char),
      non_ws ((split_loop m ls chunks cur).flatten) =
        non_ws chunks.flatten ++ non_ws cur ++ (ls.map non_ws).flatten := by
  induction ls with
  | nil =>
    intro chunks cur
    unfold split_loop
    split
    · simp [List.flatten_append, non_ws_append, non_ws_strip]
    · rename_i h
      simp only [ne_eq, Decidable.not_not] at h
      have hcur : non_ws cur = [] := by rw [← non_ws_strip, h]; rfl
      simp [hcur]
  | cons l t ih =>
    intro chunks cur
    unfold split_loop
    split
    · rw [ih]
      simp [List.flatten_append, non_ws_append, non_ws_strip, non_ws_newline]
    · rw [ih]
      simp [non_ws_append, non_ws, List.filter, py_isspace]

theorem split_reconstruction (t : List Char) (m : Nat) :
    non_ws ((split_content_intelligently t m).flatten) = non_ws t := by
  unfold split_content_intelligently
  rw [split_loop_non_ws]
  have : (List.map non_ws (split_lines t)).flatten = non_ws t := by
    rw [← non_ws_join_lines, join_split_lines]
  simpa [non_ws] using this

theorem nonws_nil_iff_all_space {l : List Char} :
    non_ws l = [] ↔ ∀ c ∈ l, py_isspace c = true := by
  unfold non_ws
  rw [List.filter_eq_nil_iff]
  constructor
  · intro h c hc
    have := h c hc
    simpa using this
  · intro h c hc
    simpa using h c hc

theorem strip_of_all_space {l : List Char} (h : non_ws l = []) : py_strip l = [] := by
  have hall := nonws_nil_iff_all_space.mp h
  have hd : l.dropWhile py_isspace = [] := List.dropWhile_eq_nil_iff.mpr hall
  unfold py_strip
  rw [hd]
  rfl

theorem is_section_break_all_space {l : List Char} (h : non_ws l = []) :
    is_section_break l = false := by
  unfold is_section_break
  rw [strip_of_all_space h]
  decide

theorem split_loop_all_space (m : Nat) (ls : List (List Char)) :
    ∀ cur : List Char, (∀ l ∈ ls, non_ws l = []) → non_ws cur = [] →
      split_loop m ls [] cur = [] := by
  induction ls with
  | nil =>
    intro cur _ hcur
    unfold split_loop
    simp [strip_of_all_space hcur]
  | cons l t ih =>
    intro cur hall hcur
    unfold split_loop
    have hb : is_section_break l = false := is_section_break_all_space (hall l (by simp))
    rw [hb, if_neg (by simp)]
    exact ih (cur ++ l ++ ['\n'])
      (fun x hx => hall x (by simp [hx]))
      (by
        rw [non_ws_append, non_ws_append, hcur, hall l (by simp)]
        rfl)

theorem split_nonempty_iff (t : List Char) (m : Nat) :
    split_content_intelligently t m ≠ [] ↔ non_ws t ≠ [] := by
  constructor
  · intro hne
    intro hws
    apply hne
    unfold split_content_intelligently
    apply split_loop_all_space
    · intro l hl
      have hflat : (List.map non_ws (split_lines t)).flatten = [] := by
        rw [← non_ws_join_lines, join_split_lines, hws]
      have : non_ws l ∈ List.map non_ws (split_lines t) := List.mem_map_of_mem _ hl
      rcases List.eq_nil_iff_forall_not_mem.mp hflat with _
      by_contra hne'
      cases hcase : non_ws l with
      | nil => exact hne' hcase
      | cons a b =>
        have : a ∈ (List.map non_ws (split_lines t)).flatten := by
          rw [List.mem_flatten]
          exact ⟨non_ws l, this, by rw [hcase]; simp⟩
        rw [hflat] at this
        simp at this
    · rfl
  · intro hne hsplit
    apply hne
    have := split_reconstruction t m
    rw [hsplit] at this
    simpa using this.symm

/-! ## Lemmas about the Content Preprocessor -/

theorem pp_step_found_inv {st : PState} {l : List Char}
    (h : st.found = false → st.acc = []) :
    (preprocess_step st l).found = false → (preprocess_step st l).acc = [] := by
  obtain ⟨bx, bt, bf, acc⟩ := st
  by_cases h1 : has_xbrl_indicator l = true <;>
    by_cases h2 : has_xbrl_clear l = true <;>
    by_cases h3 : has_toc_marker l = true <;>
    by_cases h4 : toc_digit_skip l = true <;>
    by_cases h5 : toc_narrative_fires l = true <;>
    by_cases h6 : narrative_elif_fires l = true <;>
    cases bx <;> cases bt <;> cases bf <;>
    simp_all [preprocess_step]

theorem pp_fold_found_inv (ls : List (List Char)) :
    ∀ st : PState, (st.found = false → st.acc = []) →
      ((ls.foldl preprocess_step st).found = false → (ls.foldl preprocess_step st).acc = []) := by
  induction ls with
  | nil => intro st h; exact h
  | cons l t ih =>
    intro st h
    exact ih (preprocess_step st l) (pp_step_found_inv h)

theorem pos_qual_line_nil : pos_qual_line ([] : List Char) = false := by decide

theorem pp_fallback_scan_none {lines : List (List Char)}
    (h : ∀ l ∈ lines, pos_qual_line l = false) : pp_fallback_scan lines = none := by
  unfold pp_fallback_scan
  apply List.find?_eq_none.mpr
  intro i _
  cases hg : lines.get? i with
  | none => simp [hg, pos_qual_line_nil]
  | some l =>
    have : l ∈ lines := List.get?_mem hg
    simp [hg, h l this]

theorem pp_step_found_phase {l : List Char} (acc : List (List Char))
    (hx : has_xbrl_indicator l = false) :
    preprocess_step ⟨false, false, true, acc⟩ l = ⟨false, false, true, acc ++ [l]⟩ := by
  unfold preprocess_step
  simp [hx]

theorem pp_fold_found_phase (ls : List (List Char)) :
    ∀ acc : List (List Char), (∀ l ∈ ls, has_xbrl_indicator l = false) →
      ls.foldl preprocess_step ⟨false, false, true, acc⟩ = ⟨false, false, true, acc ++ ls⟩ := by
  induction ls with
  | nil => intro acc _; simp
  | cons l t ih =>
    intro acc h
    have h0 : has_xbrl_indicator l = false := h l (by simp)
    simp only [List.foldl_cons, pp_step_found_phase acc h0]
    rw [ih (acc ++ [l]) (fun x hx => h x (by simp [hx]))]
    simp

theorem pp_step_init_elif {l : List Char}
    (hx : has_xbrl_indicator l = false) (htoc : has_toc_marker l = false)
    (hfire : narrative_elif_fires l = true) :
    preprocess_step pp_init l = ⟨false, false, true, [l]⟩ := by
  unfold preprocess_step pp_init
  simp [hx, htoc, hfire]

theorem preprocess_nofire_empty (t : List Char)
    (h1 : ((split_lines t).foldl preprocess_step pp_init).found = false)
    (h2 : ∀ l ∈ split_lines t, pos_qual_line l = false) :
    preprocess_filing_content t = [] := by
  have hacc := pp_fold_found_inv (split_lines t) pp_init (fun _ => rfl) h1
  have hscan := pp_fallback_scan_none h2
  simp only [preprocess_filing_content]
  rw [h1, hacc, hscan]
  rfl

theorem preprocess_identity (t : List Char) (l0 : List Char) (rest : List (List Char))
    (hsplit : split_lines t = l0 :: rest)
    (hx : ∀ l ∈ split_lines t, has_xbrl_indicator l = false)
    (htoc : has_toc_marker l0 = false)
    (hfire : narrative_elif_fires l0 = true) :
    preprocess_filing_content t = t := by
  have hx0 : has_xbrl_indicator l0 = false := hx l0 (by rw [hsplit]; simp)
  have hxr : ∀ l ∈ rest, has_xbrl_indicator l = false := fun l hl =>
    hx l (by rw [hsplit]; simp [hl])
  have hfold : (split_lines t).foldl preprocess_step pp_init =
      ⟨false, false, true, l0 :: rest⟩ := by
    rw [hsplit]
    simp only [List.foldl_cons]
    rw [pp_step_init_elif hx0 htoc hfire, pp_fold_found_phase rest [l0] hxr]
    simp
  simp only [preprocess_filing_content]
  rw [hfold]
  simp only [Bool.not_true, Bool.false_and, Bool.if_false_left]
  calc join_lines (if false = true then _ else l0 :: rest)
      = join_lines (l0 :: rest) := by simp
    _ = t := by rw [← hsplit, join_split_lines]

/-! ## Claims C3, C4, C5, C6 -/

/-- A non-empty input on which no preprocessing heuristic fires. -/
def c3_input : List Char := "zzzz".toList

/-- Claim C3, counterexample: on the non-empty input `"zzzz"` none of the
narrative-start heuristics fires, and the Content Preprocessor returns the
empty string — not the full unmodified input text; the output is undersized
(indeed empty). -/
theorem c3_counterexample :
    c3_input ≠ [] ∧ preprocess_filing_content c3_input = [] ∧
      preprocess_filing_content c3_input ≠ c3_input := by
  refine ⟨by decide, by decide, ?_⟩
  intro h
  have : ([] : List Char) = c3_input := by
    rw [← h]
    decide
  exact absurd this.symm (by decide)

/-- Claim C3 as amended: the Content Preprocessor (a total function — it never
raises) returns the empty string, not the full input, in the worst case: when
the line loop never detects a narrative start and no line qualifies for the
position-based fallback, the result is empty. -/
theorem c3_preprocess_nofire_returns_empty (t : List Char)
    (h1 : ((split_lines t).foldl preprocess_step pp_init).found = false)
    (h2 : ∀ l ∈ split_lines t, pos_qual_line l = false) :
    preprocess_filing_content t = [] :=
  preprocess_nofire_empty t h1 h2

/-- Claim C3 witness: the amended theorem applied at the concrete input
`"zzzz"`. -/
theorem c3_witness : preprocess_filing_content c3_input = [] :=
  c3_preprocess_nofire_returns_empty c3_input (by decide) (by decide)

/-- Claim C4: for every input text and every maximum chunk size, concatenating
in order the chunks returned by the Chunk Splitter reproduces the input text
ignoring whitespace differences — the sequence of non-whitespace characters of
the concatenation equals that of the input, so no non-whitespace character is
lost, duplicated, or reordered, and the chunks are non-overlapping and in
document order. -/
theorem c4_chunk_reconstruction (t : List Char) (m : Nat) :
    non_ws ((split_content_intelligently t m).flatten) = non_ws t :=
  split_reconstruction t m

/-- Claim C5, counterexample: the whitespace-only input `" "` is non-empty yet
the Chunk Splitter (at the default maximum chunk size 50000) returns zero
chunks. -/
theorem c5_counterexample :
    (" ".toList : List Char) ≠ [] ∧ split_content_intelligently " ".toList 50000 = [] := by
  constructor
  · decide
  · decide

/-- Claim C5 as amended: the Chunk Splitter (a total function — it always
terminates) returns at least one chunk exactly when the input contains a
non-whitespace character; an input that is entirely whitespace — not only an
empty input — yields zero chunks. -/
theorem c5_nonempty_iff_non_ws (t : List Char) (m : Nat) :
    split_content_intelligently t m ≠ [] ↔ non_ws t ≠ [] :=
  split_nonempty_iff t m

/-- A marker-free input (no XBRL indicator, no TOC marker) that the
preprocessor nevertheless fails to return unchanged. -/
def c6_bad_input : List Char :=
  "Hello world this is a simple text without any markers at all and so on.".toList

/-- Claim C6, counterexample: an input with no machine-tagging indicator and
no table-of-contents marker on any line for which the Content Preprocessor
does not return the input unchanged — even up to whitespace: the entire text
is dropped because no narrative-start indicator fires. -/
theorem c6_counterexample :
    (∀ l ∈ split_lines c6_bad_input,
        has_xbrl_indicator l = false ∧ has_toc_marker l = false) ∧
      non_ws (preprocess_filing_content c6_bad_input) ≠ non_ws c6_bad_input := by
  constructor
  · decide
  · decide

/-- Claim C6 as amended: the Content Preprocessor returns the input unchanged
(exactly, hence also up to whitespace normalization) for boilerplate-free
input whose first line additionally fires a narrative-start indicator: no line
contains an XBRL indicator, and the first line contains a narrative-start
indicator (with stripped length over 15) and no table-of-contents marker. -/
theorem c6_preprocess_identity (t : List Char) (l0 : List Char) (rest : List (List Char))
    (hsplit : split_lines t = l0 :: rest)
    (hx : ∀ l ∈ split_lines t, has_xbrl_indicator l = false)
    (htoc : has_toc_marker l0 = false)
    (hfire : narrative_elif_fires l0 = true) :
    preprocess_filing_content t = t :=
  preprocess_identity t l0 rest hsplit hx htoc hfire

/-- A boilerplate-free input whose first line fires a narrative-start
indicator. -/
def c6_good_input : List Char :=
  "Item 1. Business overview text\nSecond line of narrative".toList

/-- Claim C6 witness: the amended theorem applied at a concrete two-line
document. -/
theorem c6_witness : preprocess_filing_content c6_good_input = c6_good_input :=
  c6_preprocess_identity c6_good_input
    "Item 1. Business overview text".toList
    ["Second line of narrative".toList]
    (by decide) (by decide) (by decide) (by decide)

/-! ## Claim C8 -/

/-- The serialized table of the scenario in the spec. -/
def c8_table : List Char :=
  "Year | Premium | Loss Ratio\n2023 | $100M | 62%\n2022 | $95M | 64%".toList

/-- Claim C8: the premium/loss-ratio table is accepted by the meaningful-table
filter, accepted by the section-relevance filter for `item_7`, and rejected by
the section-relevance filter for `item_1a`. -/
theorem c8_table_filters :
    is_meaningful_table c8_table = true ∧
      is_section_relevant_table c8_table "item_7" = true ∧
      is_section_relevant_table c8_table "item_1a" = false := by
  refine ⟨by decide, by decide, by decide⟩

/-! ## Claim C9 -/

/-- Claim C9, counterexample: with seven chunks the mapper's loop submits only
`chunks[:6]` — six chunks — to the oracle, while `result["chunks_processed"]`
is `len(chunks) = 7`; the field does not equal the number of chunks actually
processed. -/
theorem c9_counterexample :
    chunks_processed_field (List.replicate 7 ['a']) ≠
      mapper_chunks_submitted (List.replicate 7 ['a']) := by
  decide

/-- Claim C9 as amended: the Structure Mapper submits chunks to the oracle
only up to the fixed cap of 6 (exactly `min 6 (number of chunks)`), while the
`chunks_processed` field of the returned `ParsedFiling` records the TOTAL
number of chunks produced by the splitter — which exceeds the number actually
processed whenever the document splits into more than six chunks. -/
theorem c9_cap_and_field (client : Option OracleBundle) (t : List Char) (url : String)
    (chunks : List (List Char)) :
    mapper_chunks_submitted chunks ≤ 6 ∧
      mapper_chunks_submitted chunks = min 6 chunks.length ∧
      (parse_structured_filing client t url).chunks_processed =
        chunks_processed_field (split_content_intelligently (preprocess_filing_content t) 50000) := by
  refine ⟨?_, ?_, ?_⟩
  · simp [mapper_chunks_submitted]
  · simp [mapper_chunks_submitted]
  · rfl

/-! ## Claim C7 -/

mutual

theorem search_node_eq_filter (kws : List String) (path : String) (n : SNode) :
    search_structure_node kws path n =
      (snode_path_sections path n).filter (fun x => keyword_hit kws x.2) := by
  cases n with
  | mk sec subs =>
    rw [search_structure_node.eq_def, snode_path_sections.eq_def]
    dsimp only
    rw [List.filter_append, search_list_eq_filter kws path subs]
    cases sec with
    | none => rfl
    | some fs =>
      simp only [List.filter]
      cases keyword_hit kws fs <;> rfl

theorem search_list_eq_filter (kws : List String) (path : String)
    (l : List (String × SNode)) :
    search_structure_list kws path l =
      (slist_path_sections path l).filter (fun x => keyword_hit kws x.2) := by
  cases l with
  | nil => rfl
  | cons e t =>
    rw [search_structure_list.eq_def, slist_path_sections.eq_def]
    dsimp only
    rw [List.filter_append, search_node_eq_filter kws (new_path path e.1) e.2,
      search_list_eq_filter kws path t]

end

/-- Claim C7: for every `ParsedFiling` and keyword list,
`find_content_with_keywords` returns exactly the `(path, FilingSection)` pairs
of the full recursive traversal (Part order, then Item order; at most one
entry per stored section) whose content contains at least one keyword as a
case-insensitive substring — it is the keyword filter of the traversal, so a
section whose content matches no keyword never appears. -/
theorem c7_keyword_search_is_filter (p : ParsedF) (keywords : List String) :
    find_content_with_keywords p keywords =
      (slist_path_sections "" p.structure_).filter (fun x => keyword_hit keywords x.2) :=
  search_list_eq_filter keywords "" p.structure_

/-! ## Membership lemmas for the structure built by the mapper -/

theorem slist_sections_append (a b : List (String × SNode)) :
    slist_sections (a ++ b) = slist_sections a ++ slist_sections b := by
  induction a with
  | nil => rfl
  | cons e t ih =>
    rw [List.cons_append, slist_sections, slist_sections, ih, List.append_assoc]

theorem mem_slist_assoc_set {x : FilingSection} {l : List (String × SNode)}
    {k : String} {v : SNode} (h : x ∈ slist_sections (assoc_set l k v)) :
    x ∈ snode_sections v ∨ x ∈ slist_sections l := by
  induction l with
  | nil =>
    rw [assoc_set] at h
    rw [slist_sections, slist_sections] at h
    simp at h
    exact Or.inl h
  | cons e t ih =>
    rw [assoc_set] at h
    split at h
    · rw [slist_sections] at h
      rcases List.mem_append.mp h with h' | h'
      · exact Or.inl h'
      · exact Or.inr (by rw [slist_sections]; exact List.mem_append.mpr (Or.inr h'))
    · rw [slist_sections] at h
      rcases List.mem_append.mp h with h' | h'
      · exact Or.inr (by rw [slist_sections]; exact List.mem_append.mpr (Or.inl h'))
      · rcases ih h' with h'' | h''
        · exact Or.inl h''
        · exact Or.inr (by rw [slist_sections]; exact List.mem_append.mpr (Or.inr h''))

theorem mem_slist_ensure_part {x : FilingSection} {acc : List (String × SNode)}
    {pid : String} (h : x ∈ slist_sections (ensure_part acc pid)) :
    x ∈ slist_sections acc := by
  rw [ensure_part] at h
  split at h
  · exact h
  · rw [slist_sections_append] at h
    rcases List.mem_append.mp h with h' | h'
    · exact h'
    · rw [slist_sections, snode_sections, slist_sections] at h'
      simp [Option.toList] at h'

theorem mem_slist_map_update {x : FilingSection} {pid sid : String} {fs : FilingSection} :
    ∀ l : List (String × SNode),
      x ∈ slist_sections (l.map (fun e =>
        if e.1 = pid then
          match e.2 with
          | SNode.mk sec subs =>
            (e.1, SNode.mk sec (assoc_set subs sid (SNode.mk (some fs) [])))
        else e)) →
      x = fs ∨ x ∈ slist_sections l := by
  intro l
  induction l with
  | nil => intro h; exact Or.inr h
  | cons e t ih =>
    intro h
    rw [List.map_cons, slist_sections] at h
    rcases List.mem_append.mp h with h' | h'
    · by_cases hpid : e.1 = pid
      · rw [if_pos hpid] at h'
        cases he : e.2 with
        | mk sec subs =>
          rw [he] at h'
          dsimp only at h'
          rw [snode_sections] at h'
          rcases List.mem_append.mp h' with h'' | h''
          · refine Or.inr ?_
            rw [slist_sections]
            refine List.mem_append.mpr (Or.inl ?_)
            rw [he, snode_sections]
            exact List.mem_append.mpr (Or.inl h'')
          · rcases mem_slist_assoc_set h'' with h3 | h3
            · rw [snode_sections, slist_sections] at h3
              simp [Option.toList] at h3
              exact Or.inl h3
            · refine Or.inr ?_
              rw [slist_sections]
              refine List.mem_append.mpr (Or.inl ?_)
              rw [he, snode_sections]
              exact List.mem_append.mpr (Or.inr h3)
      · rw [if_neg hpid] at h'
        exact Or.inr (by rw [slist_sections]; exact List.mem_append.mpr (Or.inl h'))
    · rcases ih h' with h'' | h''
      · exact Or.inl h''
      · exact Or.inr (by rw [slist_sections]; exact List.mem_append.mpr (Or.inr h''))

theorem mem_slist_set_subsection {x : FilingSection} {acc : List (String × SNode)}
    {pid sid : String} {fs : FilingSection}
    (h : x ∈ slist_sections (set_subsection acc pid sid fs)) :
    x = fs ∨ x ∈ slist_sections acc := by
  rw [set_subsection] at h
  rcases mem_slist_map_update (ensure_part acc pid) h with h' | h'
  · exact Or.inl h'
  · exact Or.inr (mem_slist_ensure_part h')

theorem mem_slist_process_section {x : FilingSection} {ob : OracleBundle}
    {chunk : List Char} {acc : List (String × SNode)} {sf : SectionFound}
    (h : x ∈ slist_sections (process_section ob chunk acc sf)) :
    x = built_section ob chunk sf ∨ x ∈ slist_sections acc := by
  rw [process_section] at h
  split at h
  · exact mem_slist_set_subsection h
  · exact Or.inr h

theorem mem_slist_foldl_sections {x : FilingSection} {ob : OracleBundle}
    {chunk : List Char} (sfs : List SectionFound) :
    ∀ acc : List (String × SNode),
      x ∈ slist_sections (sfs.foldl (process_section ob chunk) acc) →
      (∃ sf ∈ sfs, x = built_section ob chunk sf) ∨ x ∈ slist_sections acc := by
  induction sfs with
  | nil => intro acc h; exact Or.inr h
  | cons sf t ih =>
    intro acc h
    rw [List.foldl_cons] at h
    rcases ih (process_section ob chunk acc sf) h with h' | h'
    · rcases h' with ⟨sf', hsf', hx⟩
      exact Or.inl ⟨sf', by simp [hsf'], hx⟩
    · rcases mem_slist_process_section h' with h'' | h''
      · exact Or.inl ⟨sf, by simp, h''⟩
      · exact Or.inr h''

theorem mem_slist_mapper {x : FilingSection} {ob : OracleBundle}
    {chunks : List (List Char)}
    (h : x ∈ slist_sections (llm_parse_structure_pydantic ob chunks)) :
    ∃ i ca sf chunk, ob.analyze_chunk i = some ca ∧ sf ∈ ca.sections_found ∧
      x = built_section ob chunk sf := by
  rw [llm_parse_structure_pydantic] at h
  suffices key : ∀ (l : List (Nat × List Char)) (acc : List (String × SNode)),
      x ∈ slist_sections (l.foldl (fun acc ic =>
        match ob.analyze_chunk ic.1 with
        | none => acc
        | some chunk_analysis =>
          chunk_analysis.sections_found.foldl (process_section ob ic.2) acc) acc) →
      (∃ i ca sf chunk, ob.analyze_chunk i = some ca ∧ sf ∈ ca.sections_found ∧
        x = built_section ob chunk sf) ∨ x ∈ slist_sections acc by
    rcases key ((chunks.take 6).enum) [] h with h' | h'
    · exact h'
    · rw [slist_sections] at h'
      simp at h'
  intro l
  induction l with
  | nil => intro acc h'; exact Or.inr h'
  | cons ic t ih =>
    intro acc h'
    rw [List.foldl_cons] at h'
    rcases ih _ h' with h'' | h''
    · exact Or.inl h''
    · revert h''
      cases hca : ob.analyze_chunk ic.1 with
      | none => intro h''; exact Or.inr h''
      | some ca =>
        intro h''
        rcases mem_slist_foldl_sections ca.sections_found acc h'' with h3 | h3
        · rcases h3 with ⟨sf, hsf, hx⟩
          exact Or.inl ⟨ic.1, ca, sf, ic.2, hca, hsf, hx⟩
        · exact Or.inr h3

/-! ## Claim C10 -/

/-- Claim C10: `_get_section_purpose` returns exactly the string
`_get_section_description` returns, for every section identifier; and
consequently every `FilingSection` stored by the LLM-driven mapper has its
`description` attribute equal to its `purpose` attribute, for every oracle and
every chunk list. -/
theorem c10_purpose_eq_description :
    (∀ s : String, get_section_purpose s = get_section_description s) ∧
      ∀ (ob : OracleBundle) (chunks : List (List Char)),
        ∀ x ∈ slist_sections (llm_parse_structure_pydantic ob chunks),
          x.description = x.purpose := by
  refine ⟨fun s => rfl, fun ob chunks x hx => ?_⟩
  rcases mem_slist_mapper hx with ⟨i, ca, sf, chunk, _, _, hx'⟩
  rw [hx']
  rfl

/-- Oracle section claim used by the C10 witness. -/
def c10_sf : SectionFound :=
  { section_id := "item_7", part := "part_2", title := "MDA",
    content_start := "", content_length := 0, contains_key_info := [] }

/-- Oracle chunk analysis used by the C10 witness. -/
def c10_analysis : ChunkAnalysis := { sections_found := [c10_sf], chunk_summary := "demo" }

/-- Oracle bundle used by the C10 witness. -/
def c10_bundle : OracleBundle :=
  { analyze_chunk := fun _ => some c10_analysis,
    boundary_response := fun _ _ => none,
    find_visuals_for_section := fun _ _ => [] }

/-- Chunk text used by the C10 witness. -/
def c10_chunk : List Char :=
  "Financial overview narrative content for the demo chunk.".toList

/-- The section the mapper builds from the C10 witness inputs. -/
def c10_section : FilingSection := built_section c10_bundle c10_chunk c10_sf

/-- Claim C10 witness: the theorem applied at a concrete identifier and at a
concrete section stored by a concrete mapper run. -/
theorem c10_witness :
    get_section_purpose "item_7" = get_section_description "item_7" ∧
      c10_section.description = c10_section.purpose :=
  ⟨c10_purpose_eq_description.1 "item_7",
    c10_purpose_eq_description.2 c10_bundle [c10_chunk] c10_section (by decide)⟩

/-! ## Claim C1 -/

/-- Hypothesis on the structured-inference oracle: every section claim it
returns carries an identifier from the outline vocabulary. -/
def oracle_claims_in_vocabulary (ob : OracleBundle) : Prop :=
  ∀ i ca, ob.analyze_chunk i = some ca →
    ∀ sf ∈ ca.sections_found, sf.section_id ∈ outline_vocabulary

/-- Oracle section claim of the C1 counterexample: an identifier outside the
outline vocabulary. -/
def c1_sf : SectionFound :=
  { section_id := "item_99", part := "part_9", title := "Bogus Section",
    content_start := "", content_length := 0, contains_key_info := [] }

/-- Oracle chunk analysis of the C1 counterexample. -/
def c1_analysis : ChunkAnalysis := { sections_found := [c1_sf], chunk_summary := "demo" }

/-- Oracle bundle of the C1 counterexample. -/
def c1_bundle : OracleBundle :=
  { analyze_chunk := fun _ => some c1_analysis,
    boundary_response := fun _ _ => none,
    find_visuals_for_section := fun _ _ => [] }

/-- Document of the C1 counterexample. -/
def c1_doc : List Char :=
  "Item 1. Business of Demo Corporation\nNarrative text of the demo filing body.".toList

/-- Claim C1, counterexample: with the oracle configured, a parse whose oracle
claims the identifier `"item_99"` stores a `FilingSection` whose `section_id`
is NOT in the RegulatoryOutline vocabulary — the mapper copies the oracle's
identifier without validation. -/
theorem c1_counterexample :
    ((slist_sections (parse_structured_filing (some c1_bundle) c1_doc "u").structure_).map
        (fun s => s.section_id)) = ["item_99"] ∧
      ("item_99" : String) ∉ outline_vocabulary := by
  refine ⟨by decide, by decide⟩

/-- Every section stored by the fallback parser carries identifier
`"item_7"`. -/
theorem fallback_sections_item7 {x : FilingSection} {cleaned : List Char}
    (h : x ∈ slist_sections (fallback_parse_structure cleaned)) :
    x.section_id = "item_7" := by
  revert h
  simp only [fallback_parse_structure]
  cases hfind : find_sub (py_lower cleaned) mda_search_marker with
  | none =>
    intro h
    rw [slist_sections] at h
    simp at h
  | some mda_start =>
    intro h
    simp only [slist_sections, snode_sections, Option.toList] at h
    simp at h
    rw [h]

/-- Claim C1 as amended: every `FilingSection` stored anywhere in the result
of `parse_structured_filing` has a `section_id` in the RegulatoryOutline
vocabulary PROVIDED the oracle's claims only use vocabulary identifiers (with
no oracle configured this holds unconditionally — the fallback stores only
`item_7`); with an oracle, identifiers are copied from its claims without
validation. -/
theorem c1_section_ids_in_vocabulary (client : Option OracleBundle) (t : List Char)
    (url : String)
    (h : ∀ ob, client = some ob → oracle_claims_in_vocabulary ob) :
    ((slist_sections (parse_structured_filing client t url).structure_).all
      (fun fs => decide (fs.section_id ∈ outline_vocabulary))) = true := by
  rw [List.all_eq_true]
  intro fs hfs
  rw [decide_eq_true_iff]
  cases client with
  | none =>
    have hstruct : (parse_structured_filing none t url).structure_ =
        fallback_parse_structure (preprocess_filing_content t) := rfl
    rw [hstruct] at hfs
    rw [fallback_sections_item7 hfs]
    decide
  | some ob =>
    have hstruct : (parse_structured_filing (some ob) t url).structure_ =
        llm_parse_structure_pydantic ob
          (split_content_intelligently (preprocess_filing_content t) 50000) := rfl
    rw [hstruct] at hfs
    rcases mem_slist_mapper hfs with ⟨i, ca, sf, chunk, hca, hsf, hx⟩
    have : fs.section_id = sf.section_id := by rw [hx]; rfl
    rw [this]
    exact h ob rfl i ca hca sf hsf

/-- Document of the C1 witness (parsed without an oracle; the fallback stores
an `item_7` section). -/
def c1w_doc : List Char :=
  "Item 1. Business of Example Insurance Group\nItem 7. Management".toList ++ [apos] ++
    "s Discussion and Analysis narrative overview".toList

/-- Claim C1 witness: the amended theorem applied with no oracle configured at
a concrete document. -/
theorem c1_witness :
    ((slist_sections (parse_structured_filing none c1w_doc "u").structure_).all
      (fun fs => decide (fs.section_id ∈ outline_vocabulary))) = true :=
  c1_section_ids_in_vocabulary none c1w_doc "u" (fun _ hob => Option.noConfusion hob)

/-! ## Claim C2 -/

theorem find_sub_from_isPrefix {hay needle : List Char} {start i : Nat}
    (h : find_sub_from hay needle start = some i) :
    needle.isPrefixOf (hay.drop i) = true ∧ start ≤ i := by
  unfold find_sub_from at h
  simp only [Option.map_eq_some'] at h
  obtain ⟨j, hj, rfl⟩ := h
  have := find_sub_isPrefix hj
  rw [List.drop_drop] at this
  exact ⟨by simpa [Nat.add_comm] using this, Nat.le_add_left start j⟩

/-- The fallback parser, given cleaned text containing the MD&A marker, stores
a non-empty `item_7` section under `part_2` whose content is a contiguous
piece of the cleaned text. -/
theorem fallback_mda_content (cleaned : List Char)
    (h : contains_sub (py_lower cleaned) mda_search_marker = true) :
    ∃ fs, lookup_section (fallback_parse_structure cleaned) "part_2" "item_7" = some fs ∧
      fs.content ≠ [] ∧ fs.content <:+: cleaned := by
  obtain ⟨i, hi⟩ := contains_sub_iff_find.mp h
  have hip := find_sub_isPrefix hi
  have hlen : i < cleaned.length := by
    have := find_sub_lt_length (by decide) hi
    rwa [py_lower_length] at this
  have hdrop_ne : cleaned.drop i ≠ [] := by
    intro hc
    rw [← List.length_eq_zero] at hc
    rw [List.length_drop] at hc
    omega
  have hcontent : ∀ n, 0 < n → ((cleaned.drop i).take n ≠ [] ∧
      (cleaned.drop i).take n <:+: cleaned) := by
    intro n hn
    constructor
    · intro hc
      rw [← List.length_eq_zero] at hc
      rw [List.length_take] at hc
      have : cleaned.drop i ≠ [] := hdrop_ne
      rw [← List.length_pos] at this
      omega
    · exact (List.take_prefix n (cleaned.drop i)).isInfix.trans (cleaned.drop_suffix i).isInfix
  revert h
  simp only [fallback_parse_structure]
  rw [hi]
  intro _
  cases hend : find_sub_from (py_lower cleaned) fs_search_marker i with
  | none =>
    simp only [hend]
    refine ⟨_, rfl, ?_, ?_⟩
    · have := (hcontent (i + 50000 - i) (by omega)).1
      simpa using this
    · have := (hcontent (i + 50000 - i) (by omega)).2
      simpa using this
  | some e =>
    simp only [hend]
    have hgt : i < e := by
      rcases find_sub_from_isPrefix hend with ⟨hpre, hge⟩
      rcases Nat.lt_or_ge i e with h' | h'
      · exact h'
      · have : e = i := Nat.le_antisymm (by omega) hge
        subst this
        have h1 := isPrefixOf_head (by simpa [mda_search_marker] using hip)
        have h2 := isPrefixOf_head (by simpa [fs_search_marker] using hpre)
        rw [h1] at h2
        simp at h2
    refine ⟨_, rfl, ?_, ?_⟩
    · exact (hcontent (e - i) (by omega)).1
    · exact (hcontent (e - i) (by omega)).2

/-- Claim C2 as amended: with no oracle configured, whenever the cleaned text
contains the MD&A title (case-insensitively), the parse yields a
`FilingSection` for `item_7` under `part_2` whose content is non-empty and a
contiguous piece of the cleaned text; the content's end boundary, however, is
the first occurrence of `"financial statements"` after the MD&A start (or a
50,000-character window) — not the `"Item 8."` header, so text appearing after
`"Item 8."` can be included. -/
theorem c2_fallback_mda (t : List Char) (url : String)
    (h : contains_sub (py_lower (preprocess_filing_content t)) mda_search_marker = true) :
    section_content_of (parse_structured_filing none t url) "part_2" "item_7" ≠ [] ∧
      section_content_of (parse_structured_filing none t url) "part_2" "item_7"
        <:+: preprocess_filing_content t := by
  obtain ⟨fs, hlook, hne, hinf⟩ := fallback_mda_content (preprocess_filing_content t) h
  have hs : (parse_structured_filing none t url).structure_ =
      fallback_parse_structure (preprocess_filing_content t) := rfl
  unfold section_content_of
  rw [hs, hlook]
  exact ⟨hne, hinf⟩

/-- Preamble of the C2 counterexample document. -/
def c2_pre : List Char := "Item 1. Business of Example Corporation\n".toList

/-- The literal MD&A header required by the claim. -/
def c2_hdr : List Char :=
  "Item 7. Management".toList ++ [apos] ++ "s Discussion and Analysis".toList

/-- Over 500 characters of section text. -/
def c2_mid : List Char := '\n' :: (List.replicate 510 'a' ++ ['\n'])

/-- The `"Item 8."` header line. -/
def c2_it8 : List Char := "Item 8. Other Section".toList

/-- Text appearing strictly after the `"Item 8."` header. -/
def c2_post : List Char := "\nSECRETDATA appearing after item eight".toList

/-- The C2 counterexample document. -/
def c2_doc : List Char := c2_pre ++ c2_hdr ++ c2_mid ++ c2_it8 ++ c2_post

set_option maxRecDepth 100000 in
/-- Claim C2, counterexample: a document containing the literal header
`"Item 7. Management's Discussion and Analysis"`, then over 500 characters,
then `"Item 8."`, for which the no-oracle parse stores an `item_7` section
whose content DOES contain text (`"SECRETDATA..."`) appearing only after the
`"Item 8."` header — the fallback bounds the section at
`"financial statements"`, absent here, not at `"Item 8."`. -/
theorem c2_counterexample :
    c2_doc = c2_pre ++ c2_hdr ++ c2_mid ++ c2_it8 ++ c2_post ∧
      500 ≤ c2_mid.length ∧
      contains_sub (c2_pre ++ c2_hdr ++ c2_mid ++ c2_it8) "SECRETDATA".toList = false ∧
      contains_sub c2_post "SECRETDATA".toList = true ∧
      contains_sub
        (section_content_of (parse_structured_filing none c2_doc "u") "part_2" "item_7")
        "SECRETDATA".toList = true := by
  refine ⟨rfl, by decide, by decide, by decide, by decide⟩

set_option maxRecDepth 100000 in
/-- Claim C2 witness: the amended theorem applied at the concrete document. -/
theorem c2_witness :
    section_content_of (parse_structured_filing none c2_doc "u") "part_2" "item_7" ≠ [] ∧
      section_content_of (parse_structured_filing none c2_doc "u") "part_2" "item_7"
        <:+: preprocess_filing_content c2_doc :=
  c2_fallback_mda c2_doc "u" (by decide)

end FilingSections
